import Mathlib

/-!
# Verification of the search-system Component Registry & Dynamic Resolution Engine

Shallow embedding of the registry subsystem of the `search-system` repository:

* `src/search_agent/registry/yaml_parser.py`               (strict manifest parser)
* `src/search_agent/registry/sub_agents_registry_parser.py` (lenient manifest parser)
* `src/search_agent/registry/agent_loader.py`              (symbol resolver / discovery)
* `src/search_agent/registry/agents_registry.py`           (caching registry facade)
* `src/search_agent/registry/sub_agents_registry.py`       (non-caching registry facade)
* `src/custom_adk_registry/sub_agents/loader.py`           (loader with tool / sub-agent attachment)
* `src/custom_adk_registry/sub_agents/registry.py`
* `src/custom_adk_registry/sub_agents/parser.py`

Python dictionaries with optional keys are embedded as structures of `Option` fields
(`none` = key absent); `dict.get(k, d)` becomes `Option.getD`.  Python exceptions
become an `Except` error channel with one constructor per exception class of
`src/search_agent/registry/exceptions.py` (plus `keyError` for a raw Python
`KeyError` escaping the registry, which the source does not wrap).  Dynamic
`importlib` imports are an environment parameter: a function from module
paths to import outcomes.  File-system reads are likewise an environment
value (`ParseInput`).
-/

/-- Error taxonomy of `src/search_agent/registry/exceptions.py` (shared by the
`custom_adk_registry` variant).  `agentLoadError` carries the chained `__cause__`
set by Python's `raise ... from e` (`none` when raised without `from`).
`keyError` models a raw Python `KeyError` (not a registry exception class). -/
inductive RegError where
  | configurationError (msg : String)
  | agentNotFoundError (msg : String)
  | agentLoadError (msg : String) (cause : Option RegError)
  | toolLoadError (msg : String)
  | keyError (key : String)
  deriving Repr

/-- Python `str(e)` on an exception: its message (a `KeyError` prints its key quoted). -/
def errMsg : RegError → String
  | .configurationError m => m
  | .agentNotFoundError m => m
  | .agentLoadError m _ => m
  | .toolLoadError m => m
  | .keyError k => "'" ++ k ++ "'"

/-- The fields of `google.adk.agents.llm_agent.Agent` that the registry reads or
copies (`loader.py:_rebuild_agent_with_tools_and_sub_agents` copies exactly
`model`, `name`, `description`, `instruction` and replaces `tools` and
`sub_agents`).  Tools and sub-agents are opaque to the registry (spec §1), so
both lists are embedded as lists of opaque references. -/
structure Agent where
  model : String
  name : String
  description : String
  instruction : String
  tools : List String
  sub_agents : List String
  deriving Repr, DecidableEq

/-- A module attribute value as seen by `discover_agent`: either an `Agent`
instance (`isinstance(candidate, Agent)` true) or anything else. -/
inductive PyVal where
  | agentVal (a : Agent)
  | otherVal (tag : String)
  deriving Repr, DecidableEq

/-- `isinstance(candidate, Agent)`. -/
def isAgentVal : PyVal → Bool
  | .agentVal _ => true
  | .otherVal _ => false

/-- An imported Python module: its attributes in `dir(module)` order
(`dir` returns names sorted; attribute names are unique). -/
structure PyModule where
  attrs : List (String × PyVal)
  deriving Repr, DecidableEq

/-- `hasattr` / `getattr` on a module. -/
def getAttrM (m : PyModule) (n : String) : Option PyVal :=
  (m.attrs.find? (fun p => p.1 == n)).map (fun p => p.2)

/-- One tool entry of a manifest (`tools:` list): the keys the source reads,
as optional fields (`none` = key absent). -/
structure ToolConfig where
  name : Option String
  module : Option String
  function : Option String
  enabled : Option Bool
  order : Option Int
  deriving Repr, DecidableEq

/-- One agent entry of a manifest (`agents:` list): the keys the source reads.
`sub_agents` nests recursively (`loader.py:load_sub_agents_for_agent`). -/
inductive AgentConfig where
  | mk (name : Option String) (module : Option String) (enabled : Option Bool)
      (order : Option Int) (tools : List ToolConfig) (sub_agents : List AgentConfig)
  deriving Repr

def AgentConfig.name : AgentConfig → Option String
  | .mk n _ _ _ _ _ => n

def AgentConfig.module : AgentConfig → Option String
  | .mk _ m _ _ _ _ => m

def AgentConfig.enabled : AgentConfig → Option Bool
  | .mk _ _ e _ _ _ => e

def AgentConfig.order : AgentConfig → Option Int
  | .mk _ _ _ o _ _ => o

def AgentConfig.tools : AgentConfig → List ToolConfig
  | .mk _ _ _ _ t _ => t

def AgentConfig.sub_agents : AgentConfig → List AgentConfig
  | .mk _ _ _ _ _ s => s

/-- `s.endswith(suffix)` on the character data (the byte-position-based
`String` primitives are irreducible in Lean's kernel; the character-level
check is semantically identical). -/
def strEndsWith (s suffix : String) : Bool :=
  suffix.data.isSuffixOf s.data

/-- `s.startswith(pre)` on the character data. -/
def strStartsWith (s pre : String) : Bool :=
  pre.data.isPrefixOf s.data

/-- Python truthiness of an optional string value (`None` and `""` are falsy),
as used by `if not name or not module` and `if not all([...])`. -/
def truthyStr : Option String → Bool
  | none => false
  | some s => !s.data.isEmpty

/-- `config.get('enabled', False)` used as the filter predicate
(`if config.get('enabled', False)`). -/
def enabledP (c : AgentConfig) : Bool :=
  c.enabled.getD false

/-- `x.get('order', 999)`: the sort key with the default sentinel `999`. -/
def orderKey (c : AgentConfig) : Int :=
  c.order.getD 999

/-- `tool.get('enabled', False)`. -/
def toolEnabledP (c : ToolConfig) : Bool :=
  c.enabled.getD false

/-- `x.get('order', 999)` for tool entries. -/
def toolOrderKey (c : ToolConfig) : Int :=
  c.order.getD 999

/-- Python `list.sort(key=...)` is a stable sort; `List.insertionSort` with the
key comparison `key a ≤ key b` is its standard functional model (stable, sorted
permutation). -/
def sortByKey {α : Type} (key : α → Int) (l : List α) : List α :=
  l.insertionSort (fun a b => key a ≤ key b)

/-- `enabled_configs.sort(key=lambda x: x.get('order', 999))` after the
`enabled` filter (`agents_registry.py:60-64`, `sub_agents_registry.py`,
`custom_adk_registry/sub_agents/registry.py:48-52`). -/
def sortEnabled (agent_configs : List AgentConfig) : List AgentConfig :=
  sortByKey orderKey (agent_configs.filter enabledP)

/-! ## Manifest parsing

`yaml.safe_load` and the file system are the environment: a `ParseInput` is what
the parser sees.  `content` carries an already-typed document (the parsers'
type checks on `name` / `module` / `enabled` / `order` are subsumed by the typed
embedding; a present field always has the right type here).  A falsy loaded
value (`None`, `{}`) is `emptyContent` (`if not config`). -/

/-- The value found under the top-level `agents` key. -/
inductive RawAgents where
  | notAList
  | agentsList (l : List AgentConfig)

/-- A truthy top-level YAML mapping: the `agents` key, if present. -/
structure RawDoc where
  agents : Option RawAgents

/-- The outcome of locating and reading the manifest resource. -/
inductive ParseInput where
  | missing
  | yamlError (msg : String)
  | readError (msg : String)
  | emptyContent
  | content (doc : RawDoc)

/-- `config.get('agents', [])` as used by the registries after a successful parse. -/
def getAgents (d : RawDoc) : List AgentConfig :=
  match d.agents with
  | some (.agentsList l) => l
  | _ => []

/-- Message of the strict parser's constructor-time check
(`yaml_parser.py:__init__`). -/
def mkFileNotFoundMsg (path : String) : String :=
  "Configuration file not found: " ++ path

/-- `f"Failed to parse YAML file: {e}"`. -/
def mkYamlFailMsg (e : String) : String :=
  "Failed to parse YAML file: " ++ e

/-- `f"Error reading configuration file: {e}"`. -/
def mkReadFailMsg (e : String) : String :=
  "Error reading configuration file: " ++ e

/-- `f"Agent '{agent_name}' missing required fields: {missing_fields}"`
(`yaml_parser.py:validate_config`); the printed set is opaque here. -/
def mkMissingFieldsMsg (agent_name : String) : String :=
  "Agent '" ++ agent_name ++ "' missing required fields"

/-- Required-field presence check of the strict parser
(`yaml_parser.py:validate_config`, `REQUIRED_FIELDS = {name, module, enabled, order}`).
Type errors on present fields are unrepresentable in the typed embedding. -/
def strictValidateEntry (idx : Nat) (a : AgentConfig) : Except RegError Unit :=
  if a.name.isSome && a.module.isSome && a.enabled.isSome && a.order.isSome then
    .ok ()
  else
    .error (.configurationError
      (mkMissingFieldsMsg (a.name.getD ("index " ++ toString idx))))

/-- The per-entry loop of `yaml_parser.py:validate_config` (aborts at the first
invalid entry; an empty list returns early). -/
def strictValidateAgents : Nat → List AgentConfig → Except RegError Unit
  | _, [] => .ok ()
  | idx, a :: as =>
    match strictValidateEntry idx a with
    | .error e => .error e
    | .ok () => strictValidateAgents (idx + 1) as

/-- `yaml_parser.py` (strict variant): the constructor raises
`ConfigurationError` when the file is missing; `parse()` then reads, rejects
empty/unparsable content, requires a top-level `agents` list and validates
required fields.  Constructor-time and parse-time failures are combined into
one function of the `ParseInput`. -/
def strictParse (path : String) : ParseInput → Except RegError RawDoc
  | .missing => .error (.configurationError (mkFileNotFoundMsg path))
  | .yamlError e => .error (.configurationError (mkYamlFailMsg e))
  | .readError e => .error (.configurationError (mkReadFailMsg e))
  | .emptyContent => .error (.configurationError "Configuration file is empty")
  | .content d =>
    match d.agents with
    | none => .error (.configurationError "Configuration must contain 'agents' key")
    | some .notAList => .error (.configurationError "'agents' must be a list")
    | some (.agentsList l) =>
      match strictValidateAgents 0 l with
      | .error e => .error e
      | .ok () => .ok d

/-- `f"Duplicate agent configuration found: agent '{name}' with module
'{module}' is defined at positions {i} and {j}"`. -/
def mkDupNameModuleMsg (name module : String) (i j : Nat) : String :=
  "Duplicate agent configuration found: agent '" ++ name ++ "' with module '" ++
    module ++ "' is defined at positions " ++ toString i ++ " and " ++ toString j

/-- `_validate_duplicate_name_module` (lenient parsers): entries whose `name` or
`module` is falsy are skipped; otherwise the `(name, module)` pair must be new.
`seen` is the dict of already-seen pairs with their positions. -/
def validateDupNameModule (seen : List ((String × String) × Nat)) (idx : Nat) :
    List AgentConfig → Except RegError Unit
  | [] => .ok ()
  | a :: as =>
    if truthyStr a.name && truthyStr a.module then
      let key := (a.name.getD "", a.module.getD "")
      match seen.find? (fun p => p.1 == key) with
      | some p =>
        .error (.configurationError (mkDupNameModuleMsg key.1 key.2 p.2 idx))
      | none => validateDupNameModule ((key, idx) :: seen) (idx + 1) as
    else
      validateDupNameModule seen (idx + 1) as

/-- `f"Duplicate order value {order} found for enabled agents: '{first}' and '{second}'"`. -/
def mkDupOrderMsg (order : Int) (first second : String) : String :=
  "Duplicate order value " ++ toString order ++ " found for enabled agents: '" ++
    first ++ "' and '" ++ second ++ "'"

/-- The scan loop of `_validate_duplicate_order` over the already-filtered
enabled entries; `order_map` maps a seen order to the first entry name bearing
it, entries without `order` are skipped. -/
def validateDupOrderLoop (order_map : List (Int × String)) :
    List AgentConfig → Except RegError Unit
  | [] => .ok ()
  | a :: as =>
    match a.order with
    | none => validateDupOrderLoop order_map as
    | some o =>
      match order_map.find? (fun p => p.1 == o) with
      | some p =>
        .error (.configurationError (mkDupOrderMsg o p.2 (a.name.getD "unknown")))
      | none => validateDupOrderLoop ((o, a.name.getD "unknown") :: order_map) as

/-- `_validate_duplicate_order` (lenient parsers): checks only entries with
`enabled` truthy. -/
def validateDupOrder (agents : List AgentConfig) : Except RegError Unit :=
  validateDupOrderLoop [] (agents.filter enabledP)

/-- `_validate_agents` of the lenient parsers: name/module uniqueness first,
then order uniqueness among enabled entries. -/
def lenientValidateAgents (agents : List AgentConfig) : Except RegError Unit :=
  match validateDupNameModule [] 0 agents with
  | .error e => .error e
  | .ok () => validateDupOrder agents

/-- `sub_agents_registry_parser.py` / `custom_adk_registry/sub_agents/parser.py`
(lenient variant): a missing file yields `{'agents': []}`; otherwise empty or
unparsable content is fatal, a top-level `agents` list is required, and the
duplicate checks run. -/
def lenientParse : ParseInput → Except RegError RawDoc
  | .missing => .ok { agents := some (.agentsList []) }
  | .yamlError e => .error (.configurationError (mkYamlFailMsg e))
  | .readError e => .error (.configurationError (mkReadFailMsg e))
  | .emptyContent => .error (.configurationError "Configuration file is empty")
  | .content d =>
    match d.agents with
    | none => .error (.configurationError "Configuration must contain 'agents' key")
    | some .notAList => .error (.configurationError "'agents' must be a list")
    | some (.agentsList l) =>
      match lenientValidateAgents l with
      | .error e => .error e
      | .ok () => .ok d


/-! ## Symbol resolution and component discovery (`agent_loader.py`, `loader.py`) -/

/-- Outcome of `importlib.import_module` on a module path: success,
`ImportError`, or any other exception. -/
inductive ImportResult where
  | ok (m : PyModule)
  | importError (msg : String)
  | otherError (msg : String)

/-- `f"Failed to import module '{module_path}' for agent '{agent_name}': {e}"`. -/
def mkImportNotFoundMsg (module_path agent_name e : String) : String :=
  "Failed to import module '" ++ module_path ++ "' for agent '" ++ agent_name ++
    "': " ++ e

/-- `f"Error importing module '{module_path}' for agent '{agent_name}': {e}"`. -/
def mkImportOtherMsg (module_path agent_name e : String) : String :=
  "Error importing module '" ++ module_path ++ "' for agent '" ++ agent_name ++
    "': " ++ e

/-- `f"Multiple agent instances found in '{module_path}': {names}. Cannot
determine which one to use for '{agent_name}'"` — carries every candidate name. -/
def mkAmbiguousMsg (names : List String) (module_path agent_name : String) : String :=
  "Multiple agent instances found in '" ++ module_path ++ "': " ++ toString names ++
    ". Cannot determine which one to use for '" ++ agent_name ++ "'"

/-- `f"No Agent instance found in module '{module_path}' for agent '{agent_name}'. ..."`. -/
def mkNoAgentMsg (module_path agent_name : String) : String :=
  "No Agent instance found in module '" ++ module_path ++ "' for agent '" ++
    agent_name ++ "'. The module must export an Agent instance."

/-- Strategy 2 candidate collection: every non-private attribute whose name ends
in `_agent` and whose value is an `Agent` instance, in `dir` order. -/
def agentCandidates (m : PyModule) : List (String × Agent) :=
  m.attrs.filterMap (fun p =>
    if strEndsWith p.1 "_agent" && ! strStartsWith p.1 "_" then
      match p.2 with
      | .agentVal a => some (p.1, a)
      | .otherVal _ => none
    else none)

/-- Strategy 3 fallback scan: every non-private attribute that is an `Agent`
instance, in `dir` order. -/
def scanAgents (m : PyModule) : List Agent :=
  m.attrs.filterMap (fun p =>
    if ! strStartsWith p.1 "_" then
      match p.2 with
      | .agentVal a => some a
      | .otherVal _ => none
    else none)

/-- `AgentLoader.discover_agent` (`agent_loader.py`): exact-name attribute
first, then the `_agent`-suffix candidates (unique → take it; several → match by
symbol name or embedded `agent.name`, else ambiguous error), then a full scan,
else a not-found error. -/
def discoverAgent (m : PyModule) (agent_name module_path : String) :
    Except RegError Agent :=
  match getAttrM m agent_name with
  | some (.agentVal a) => .ok a
  | _ =>
    match agentCandidates m with
    | [] =>
      match scanAgents m with
      | a :: _ => .ok a
      | [] => .error (.agentLoadError (mkNoAgentMsg module_path agent_name) none)
    | [(_, a)] => .ok a
    | c1 :: c2 :: rest =>
      match (c1 :: c2 :: rest).find?
          (fun p => p.1 == agent_name || p.2.name == agent_name) with
      | some (_, a) => .ok a
      | none =>
        .error (.agentLoadError
          (mkAmbiguousMsg ((c1 :: c2 :: rest).map Prod.fst) module_path agent_name) none)

/-- `AgentLoader.load_agent_from_module`: import (distinguishing `ImportError`
from other exceptions), then discovery. -/
def loadAgentFromModule (imp : String → ImportResult)
    (module_path agent_name : String) : Except RegError Agent :=
  match imp module_path with
  | .importError e =>
    .error (.agentNotFoundError (mkImportNotFoundMsg module_path agent_name e))
  | .otherError e =>
    .error (.agentLoadError (mkImportOtherMsg module_path agent_name e) none)
  | .ok m => discoverAgent m agent_name module_path

/-- `SubAgentLoader._rebuild_agent_with_tools_and_sub_agents`: a fresh `Agent`
copying `model`, `name`, `description`, `instruction`; `tools` / `sub_agents`
taken from the arguments when not `None`, else kept from the original. -/
def rebuildAgent (agent : Agent) (tools : Option (List String))
    (sub_agents : Option (List String)) : Agent :=
  { model := agent.model, name := agent.name, description := agent.description,
    instruction := agent.instruction,
    tools := tools.getD agent.tools,
    sub_agents := sub_agents.getD agent.sub_agents }

/-- The inline conditional at each success point of
`SubAgentLoader.discover_agent`:
`_rebuild_agent_with_tools_and_sub_agents(c, tools, sub_agents) if (tools or
sub_agents) else c` (Python truthiness of the two lists). -/
def attachIfAny (a : Agent) (tools sub_agents : List String) : Agent :=
  if !tools.isEmpty || !sub_agents.isEmpty then
    rebuildAgent a (some tools) (some sub_agents)
  else a

/-- `SubAgentLoader.discover_agent` (`custom_adk_registry/sub_agents/loader.py`):
identical discovery cascade to `AgentLoader.discover_agent`, with the
rebuild-on-attach conditional at every success point.  The `tools` /
`sub_agents` parameters are the already-loaded lists the caller passes. -/
def subDiscoverAgent (m : PyModule) (agent_name module_path : String)
    (tools sub_agents : List String) : Except RegError Agent :=
  match getAttrM m agent_name with
  | some (.agentVal a) => .ok (attachIfAny a tools sub_agents)
  | _ =>
    match agentCandidates m with
    | [] =>
      match scanAgents m with
      | a :: _ => .ok (attachIfAny a tools sub_agents)
      | [] => .error (.agentLoadError (mkNoAgentMsg module_path agent_name) none)
    | [(_, a)] => .ok (attachIfAny a tools sub_agents)
    | c1 :: c2 :: rest =>
      match (c1 :: c2 :: rest).find?
          (fun p => p.1 == agent_name || p.2.name == agent_name) with
      | some (_, a) => .ok (attachIfAny a tools sub_agents)
      | none =>
        .error (.agentLoadError
          (mkAmbiguousMsg ((c1 :: c2 :: rest).map Prod.fst) module_path agent_name) none)

/-! ## Tool and sub-agent attachment loops (`loader.py`) -/

/-- An attribute of an imported tool module: `callable` or not. -/
inductive ToolVal where
  | callableVal (f : String)
  | nonCallable (tag : String)

/-- An imported tool module: attribute map. -/
structure ToolModule where
  attrs : List (String × ToolVal)

/-- Outcome of `importlib.import_module` on a tool module path. -/
inductive ToolImportResult where
  | ok (m : ToolModule)
  | importError (msg : String)
  | otherError (msg : String)

/-- `f"Failed to import tool module '{module_path}' for agent '{agent_name}': {e}"`. -/
def mkToolImportMsg (module_path agent_name e : String) : String :=
  "Failed to import tool module '" ++ module_path ++ "' for agent '" ++
    agent_name ++ "': " ++ e

/-- `f"Function '{function_name}' not found in module '{module_path}'"`. -/
def mkFnNotFoundMsg (function_name module_path : String) : String :=
  "Function '" ++ function_name ++ "' not found in module '" ++ module_path ++ "'"

/-- `f"'{function_name}' in module '{module_path}' is not callable"`. -/
def mkNotCallableMsg (function_name module_path : String) : String :=
  "'" ++ function_name ++ "' in module '" ++ module_path ++ "' is not callable"

/-- `f"Failed to load tool '{tool_name}' for agent '{agent_name}': {e}"`. -/
def mkToolLoadFailMsg (tool_name agent_name e : String) : String :=
  "Failed to load tool '" ++ tool_name ++ "' for agent '" ++ agent_name ++
    "': " ++ e

/-- The `try` body of `SubAgentLoader.load_tools_for_agent` for one complete
tool entry: import the module (`ImportError` → wrapped import message; any
other import failure → generic wrap), look up `function_name`
(absent → `AgentLoadError` re-caught by the generic `except` and re-wrapped),
check callability (not callable → likewise re-wrapped). -/
def loadOneTool (toolImp : String → ToolImportResult)
    (tool_name module_path function_name agent_name : String) :
    Except RegError String :=
  match toolImp module_path with
  | .importError e =>
    .error (.agentLoadError (mkToolImportMsg module_path agent_name e) none)
  | .otherError e =>
    .error (.agentLoadError (mkToolLoadFailMsg tool_name agent_name e) none)
  | .ok tm =>
    match (tm.attrs.find? (fun p => p.1 == function_name)).map (fun p => p.2) with
    | Option.none =>
      .error (.agentLoadError
        (mkToolLoadFailMsg tool_name agent_name (mkFnNotFoundMsg function_name module_path)) none)
    | Option.some (ToolVal.nonCallable _) =>
      .error (.agentLoadError
        (mkToolLoadFailMsg tool_name agent_name (mkNotCallableMsg function_name module_path)) none)
    | Option.some (ToolVal.callableVal f) => .ok f

/-- The per-entry loop of `load_tools_for_agent` over the filtered and sorted
tool entries: an entry with falsy `name`, `module` or `function` is skipped
(`if not all([...]): continue`); otherwise it is resolved, and any failure
aborts the whole loop. -/
def toolLoop (toolImp : String → ToolImportResult) (agent_name : String) :
    List ToolConfig → Except RegError (List String)
  | [] => .ok []
  | c :: cs =>
    if truthyStr c.name && truthyStr c.module && truthyStr c.function then
      match loadOneTool toolImp (c.name.getD "") (c.module.getD "")
          (c.function.getD "") agent_name with
      | .error e => .error e
      | .ok f =>
        match toolLoop toolImp agent_name cs with
        | .error e => .error e
        | .ok fs => .ok (f :: fs)
    else
      toolLoop toolImp agent_name cs

/-- `SubAgentLoader.load_tools_for_agent`: filter `enabled`, sort by
`order` (default 999), then run the per-entry loop. -/
def loadToolsForAgent (toolImp : String → ToolImportResult)
    (tool_configs : List ToolConfig) (agent_name : String) :
    Except RegError (List String) :=
  toolLoop toolImp agent_name
    (sortByKey toolOrderKey (tool_configs.filter toolEnabledP))

/-- `f"Failed to load sub_agent '{sub_agent_name}' for agent '{parent_agent_name}': {e}"`. -/
def mkSubAgentFailMsg (sub_agent_name parent e : String) : String :=
  "Failed to load sub_agent '" ++ sub_agent_name ++ "' for agent '" ++ parent ++
    "': " ++ e

/-- The per-entry loop of `SubAgentLoader.load_sub_agents_for_agent` over the
filtered and sorted entries: entries with falsy `name` or `module` are skipped
with a warning; otherwise the recursive `load_agent_from_module` call —
abstracted as the environment function `loadFn (module, name, tools,
sub_agents)` returning an opaque loaded sub-agent — runs, and any failure is
wrapped into an `AgentLoadError` naming the sub-agent and parent. -/
def subAgentLoop
    (loadFn : String → String → List ToolConfig → List AgentConfig → Except RegError String)
    (parent : String) : List AgentConfig → Except RegError (List String)
  | [] => .ok []
  | c :: cs =>
    if truthyStr c.name && truthyStr c.module then
      match loadFn (c.module.getD "") (c.name.getD "") c.tools c.sub_agents with
      | .error e =>
        .error (.agentLoadError (mkSubAgentFailMsg (c.name.getD "") parent (errMsg e)) none)
      | .ok a =>
        match subAgentLoop loadFn parent cs with
        | .error e => .error e
        | .ok as => .ok (a :: as)
    else
      subAgentLoop loadFn parent cs

/-- `SubAgentLoader.load_sub_agents_for_agent`: filter `enabled`, sort by
`order` (default 999), then run the per-entry loop. -/
def loadSubAgentsForAgent
    (loadFn : String → String → List ToolConfig → List AgentConfig → Except RegError String)
    (sub_agent_configs : List AgentConfig) (parent : String) :
    Except RegError (List String) :=
  subAgentLoop loadFn parent
    (sortByKey orderKey (sub_agent_configs.filter enabledP))

/-! ## Registry facades -/

/-- An observable effect of a registry call: one manifest parse, or one
`load_agent_from_module` resolution attempt. -/
inductive Event where
  | parseCall
  | loadCall (module_path agent_name : String)
  deriving Repr, DecidableEq

/-- The mutable state of an `AgentsRegistry` (`agents_registry.py`):
`self._config` and `self._loaded_agents`. -/
structure RegState where
  config : Option RawDoc
  loadedAgents : Option (List Agent)

/-- The environment an `AgentsRegistry` runs against: the manifest resource
(`path`, `input`) and the import system. -/
structure AgentsEnv where
  path : String
  input : ParseInput
  imp : String → ImportResult

/-- `f"Failed to load agent '{agent_name}' from '{module_path}': {e}"`. -/
def mkLoadFailMsg (agent_name module_path e : String) : String :=
  "Failed to load agent '" ++ agent_name ++ "' from '" ++ module_path ++
    "': " ++ e

/-- The per-entry loop of `AgentsRegistry.load_agents` (`agents_registry.py:70-85`)
over the filtered and sorted entries.  `config['name']` and `config['module']`
raise a raw `KeyError` outside the `try` block; the `logger.info(...,
config['order'])` call sits inside the `try`, so a missing `order` raises a
`KeyError` that the `except` wraps into an `AgentLoadError`.  Any loader
failure is wrapped into an `AgentLoadError` naming the entry and module and
chaining the cause.  The second component collects the resolution attempts. -/
def agentsLoadLoop (imp : String → ImportResult) :
    List AgentConfig → Except RegError (List Agent) × List Event
  | [] => (.ok [], [])
  | c :: cs =>
    match c.name with
    | none => (.error (.keyError "name"), [])
    | some agent_name =>
      match c.module with
      | none => (.error (.keyError "module"), [])
      | some module_path =>
        match loadAgentFromModule imp module_path agent_name with
        | .error e =>
          (.error (.agentLoadError (mkLoadFailMsg agent_name module_path (errMsg e)) (some e)),
            [.loadCall module_path agent_name])
        | .ok a =>
          match c.order with
          | none =>
            (.error (.agentLoadError
                (mkLoadFailMsg agent_name module_path (errMsg (.keyError "order")))
                (some (.keyError "order"))),
              [.loadCall module_path agent_name])
          | some _ =>
            match agentsLoadLoop imp cs with
            | (.ok as, evs) => (.ok (a :: as), .loadCall module_path agent_name :: evs)
            | (.error e, evs) => (.error e, .loadCall module_path agent_name :: evs)

/-- `AgentsRegistry.load_agents(force_reload)`: return the cache when present
and no reload is forced; otherwise parse (`self._config` is updated on parse
success, left untouched on parse failure), filter and sort the entries, load
each, and cache the list only when every entry loaded. -/
def loadAgents (env : AgentsEnv) (force_reload : Bool) (st : RegState) :
    Except RegError (List Agent) × RegState × List Event :=
  match st.loadedAgents, force_reload with
  | some cached, false => (.ok cached, st, [])
  | _, _ =>
    match strictParse env.path env.input with
    | .error e => (.error e, st, [.parseCall])
    | .ok cfg =>
      match agentsLoadLoop env.imp (sortEnabled (getAgents cfg)) with
      | (.ok l, evs) =>
        (.ok l, { config := some cfg, loadedAgents := some l }, .parseCall :: evs)
      | (.error e, evs) =>
        (.error e, { config := some cfg, loadedAgents := st.loadedAgents },
          .parseCall :: evs)

/-- The linear scan of `AgentsRegistry.get_agent_config`: first entry whose
`name` value equals the requested name (`config.get('name') == agent_name`). -/
def findAgentConfig (agent_name : String) : List AgentConfig → Option AgentConfig
  | [] => none
  | c :: cs =>
    if c.name == some agent_name then some c else findAgentConfig agent_name cs

/-- `AgentsRegistry.get_agent_config`: parse (and cache the parse) only when no
parsed config is cached, then scan all entries — enabled or not — for the first
name match; `None` when absent.  No loader interaction. -/
def getAgentConfig (env : AgentsEnv) (agent_name : String) (st : RegState) :
    Except RegError (Option AgentConfig) × RegState × List Event :=
  match st.config with
  | some cfg => (.ok (findAgentConfig agent_name (getAgents cfg)), st, [])
  | none =>
    match strictParse env.path env.input with
    | .error e => (.error e, st, [.parseCall])
    | .ok cfg =>
      (.ok (findAgentConfig agent_name (getAgents cfg)),
        { st with config := some cfg }, [.parseCall])

/-- `AgentsRegistry.reload`: clear both caches, then `load_agents(force_reload=True)`. -/
def reloadRegistry (env : AgentsEnv) (_st : RegState) :
    Except RegError (List Agent) × RegState × List Event :=
  loadAgents env true { config := none, loadedAgents := none }

/-- The per-entry loop shared by the two non-caching registry variants
(`sub_agents_registry.py`, `custom_adk_registry/sub_agents/registry.py:54-69`).
`config['name']` / `config['module']` raise a raw `KeyError`; the loader call —
abstracted as `loadFn` applied to the whole entry, standing for
`loader.load_agent_from_module(module_path, agent_name[, tools, sub_agents])` —
has any failure wrapped into an `AgentLoadError` naming the entry and module
and chaining the cause. -/
def subRegistryLoop (loadFn : AgentConfig → Except RegError Agent) :
    List AgentConfig → Except RegError (List Agent)
  | [] => .ok []
  | c :: cs =>
    match c.name with
    | none => .error (.keyError "name")
    | some agent_name =>
      match c.module with
      | none => .error (.keyError "module")
      | some module_path =>
        match loadFn c with
        | .error e =>
          .error (.agentLoadError (mkLoadFailMsg agent_name module_path (errMsg e)) (some e))
        | .ok a =>
          match subRegistryLoop loadFn cs with
          | .error e => .error e
          | .ok as => .ok (a :: as)

/-- `SubAgentRegistry.load_agents` / the non-caching `AgentsRegistry.load_agents`
applied to an already-parsed entry list: filter `enabled`, sort by `order`
(default 999, stable), then load each surviving entry in order. -/
def subRegistryLoadAgents (loadFn : AgentConfig → Except RegError Agent)
    (agent_configs : List AgentConfig) : Except RegError (List Agent) :=
  subRegistryLoop loadFn (sortEnabled agent_configs)

/-! ## Helper lemmas -/

theorem sortByKey_perm {α : Type} (key : α → Int) (l : List α) :
    (sortByKey key l).Perm l :=
  List.perm_insertionSort _ l

theorem sortByKey_pairwise {α : Type} (key : α → Int) (l : List α) :
    (sortByKey key l).Pairwise (fun a b => key a ≤ key b) := by
  haveI : IsTotal α (fun a b => key a ≤ key b) := ⟨fun a b => le_total (key a) (key b)⟩
  haveI : IsTrans α (fun a b => key a ≤ key b) :=
    ⟨fun _ _ _ hab hbc => le_trans hab hbc⟩
  exact List.sorted_insertionSort _ l

theorem filter_orderedInsert {α : Type} (key : α → Int) (v : Int) (a : α)
    (l : List α) :
    (List.orderedInsert (fun x y => key x ≤ key y) a l).filter
        (fun c => key c == v) =
      if key a = v then a :: l.filter (fun c => key c == v)
      else l.filter (fun c => key c == v) := by
  induction l with
  | nil => by_cases h : key a = v <;> simp [List.orderedInsert, h]
  | cons b bs ih =>
    simp only [List.orderedInsert]
    by_cases hab : key a ≤ key b
    · simp only [if_pos hab]
      by_cases ha : key a = v <;> simp [List.filter_cons, ha]
    · simp only [if_neg hab]
      have hb : key b < key a := lt_of_not_le hab
      by_cases ha : key a = v
      · have hbv : ¬(key b = v) := by omega
        simp [List.filter_cons, ha, hbv, ih]
      · simp [List.filter_cons, ha, ih]

theorem sortByKey_stable {α : Type} (key : α → Int) (v : Int) (l : List α) :
    (sortByKey key l).filter (fun c => key c == v) =
      l.filter (fun c => key c == v) := by
  induction l with
  | nil => rfl
  | cons a as ih =>
    simp only [sortByKey, List.insertionSort] at *
    rw [filter_orderedInsert]
    by_cases ha : key a = v <;> simp [List.filter_cons, ha, ih]

theorem subRegistryLoop_ok (loadFn : AgentConfig → Except RegError Agent)
    (f : AgentConfig → Agent) :
    ∀ l : List AgentConfig,
      (∀ c ∈ l, c.name.isSome ∧ c.module.isSome) →
      (∀ c ∈ l, loadFn c = .ok (f c)) →
      subRegistryLoop loadFn l = .ok (l.map f) := by
  intro l
  induction l with
  | nil => intro _ _; rfl
  | cons c cs ih =>
    intro hf hl
    obtain ⟨hn, hm⟩ := hf c (List.mem_cons_self c cs)
    obtain ⟨n, hn⟩ := Option.isSome_iff_exists.mp hn
    obtain ⟨m, hm⟩ := Option.isSome_iff_exists.mp hm
    have hload := hl c (List.mem_cons_self c cs)
    simp only [subRegistryLoop, hn, hm, hload]
    rw [ih (fun d hd => hf d (List.mem_cons_of_mem c hd))
        (fun d hd => hl d (List.mem_cons_of_mem c hd))]
    simp

theorem agentsLoadLoop_ok (imp : String → ImportResult) (f : AgentConfig → Agent) :
    ∀ l : List AgentConfig,
      (∀ c ∈ l, c.name.isSome ∧ c.module.isSome ∧ c.order.isSome) →
      (∀ c ∈ l, loadAgentFromModule imp (c.module.getD "") (c.name.getD "") = .ok (f c)) →
      agentsLoadLoop imp l =
        (.ok (l.map f),
          l.map (fun c => Event.loadCall (c.module.getD "") (c.name.getD ""))) := by
  intro l
  induction l with
  | nil => intro _ _; rfl
  | cons c cs ih =>
    intro hf hl
    obtain ⟨hn, hm, ho⟩ := hf c (List.mem_cons_self c cs)
    obtain ⟨n, hn⟩ := Option.isSome_iff_exists.mp hn
    obtain ⟨m, hm⟩ := Option.isSome_iff_exists.mp hm
    obtain ⟨o, ho⟩ := Option.isSome_iff_exists.mp ho
    have hload := hl c (List.mem_cons_self c cs)
    rw [hn, hm] at hload
    simp only [Option.getD_some] at hload
    simp only [agentsLoadLoop, hn, hm, ho, hload]
    rw [ih (fun d hd => hf d (List.mem_cons_of_mem c hd))
        (fun d hd => hl d (List.mem_cons_of_mem c hd))]
    simp [hn, hm]

theorem agentsLoadLoop_err (imp : String → ImportResult) :
    ∀ l : List AgentConfig,
      (∀ c ∈ l, c.name.isSome ∧ c.module.isSome ∧ c.order.isSome) →
      (∃ c ∈ l, ∃ e, loadAgentFromModule imp (c.module.getD "") (c.name.getD "") = .error e) →
      ∃ n m e, (agentsLoadLoop imp l).1 =
          .error (.agentLoadError (mkLoadFailMsg n m (errMsg e)) (some e)) ∧
        ∃ c ∈ l, c.name = some n ∧ c.module = some m ∧
          loadAgentFromModule imp m n = .error e := by
  intro l
  induction l with
  | nil => intro _ h; obtain ⟨c, hc, _⟩ := h; exact absurd hc (List.not_mem_nil c)
  | cons c cs ih =>
    intro hf hex
    obtain ⟨hn, hm, ho⟩ := hf c (List.mem_cons_self c cs)
    obtain ⟨n, hn⟩ := Option.isSome_iff_exists.mp hn
    obtain ⟨m, hm⟩ := Option.isSome_iff_exists.mp hm
    obtain ⟨o, ho⟩ := Option.isSome_iff_exists.mp ho
    cases hload : loadAgentFromModule imp m n with
    | error e =>
      refine ⟨n, m, e, ?_, c, List.mem_cons_self c cs, hn, hm, hload⟩
      have : loadAgentFromModule imp (c.module.getD "") (c.name.getD "") = .error e := by
        rw [hn, hm]; simpa using hload
      simp only [agentsLoadLoop, hn, hm]
      rw [show loadAgentFromModule imp m n = .error e from hload]
    | ok a =>
      have htail : ∃ d ∈ cs, ∃ e,
          loadAgentFromModule imp (d.module.getD "") (d.name.getD "") = .error e := by
        obtain ⟨d, hd, e, he⟩ := hex
        rcases List.mem_cons.mp hd with rfl | hd'
        · rw [hn, hm] at he
          simp only [Option.getD_some] at he
          rw [hload] at he
          exact absurd he (by simp)
        · exact ⟨d, hd', e, he⟩
      obtain ⟨n', m', e', hres, d, hd, hdn, hdm, hde⟩ :=
        ih (fun d hd => hf d (List.mem_cons_of_mem c hd)) htail
      refine ⟨n', m', e', ?_, d, List.mem_cons_of_mem c hd, hdn, hdm, hde⟩
      simp only [agentsLoadLoop, hn, hm, hload, ho]
      cases hrec : agentsLoadLoop imp cs with
      | mk r evs =>
        rw [hrec] at hres
        simp only at hres
        cases r with
        | ok _ => exact absurd hres (by simp)
        | error _ => simpa using hres

theorem strictValidateAgents_fields :
    ∀ (idx : Nat) (l : List AgentConfig), strictValidateAgents idx l = .ok () →
      ∀ c ∈ l, c.name.isSome ∧ c.module.isSome ∧ c.enabled.isSome ∧ c.order.isSome := by
  intro idx l
  induction l generalizing idx with
  | nil => intro _ c hc; exact absurd hc (List.not_mem_nil c)
  | cons c cs ih =>
    intro h d hd
    simp only [strictValidateAgents] at h
    cases he : strictValidateEntry idx c with
    | error e => rw [he] at h; exact absurd h (by simp)
    | ok u =>
      rw [he] at h
      have hc : c.name.isSome ∧ c.module.isSome ∧ c.enabled.isSome ∧ c.order.isSome := by
        simp only [strictValidateEntry] at he
        by_cases hb : (c.name.isSome && c.module.isSome && c.enabled.isSome &&
            c.order.isSome) = true
        · simp only [Bool.and_eq_true] at hb
          exact ⟨hb.1.1.1, hb.1.1.2, hb.1.2, hb.2⟩
        · rw [if_neg hb] at he; exact absurd he (by simp)
      rcases List.mem_cons.mp hd with rfl | hd'
      · exact hc
      · exact ih (idx + 1) h d hd'

theorem strictParse_fields (path : String) (input : ParseInput) (cfg : RawDoc)
    (h : strictParse path input = .ok cfg) :
    ∀ c ∈ getAgents cfg,
      c.name.isSome ∧ c.module.isSome ∧ c.enabled.isSome ∧ c.order.isSome := by
  cases input with
  | missing => exact absurd h (by simp [strictParse])
  | yamlError e => exact absurd h (by simp [strictParse])
  | readError e => exact absurd h (by simp [strictParse])
  | emptyContent => exact absurd h (by simp [strictParse])
  | content d =>
    cases hag : d.agents with
    | none => simp [strictParse, hag] at h
    | some ra =>
      cases ra with
      | notAList => simp [strictParse, hag] at h
      | agentsList l =>
        cases hv : strictValidateAgents 0 l with
        | error e => simp [strictParse, hag, hv] at h
        | ok u =>
          simp only [strictParse, hag, hv] at h
          simp only [Except.ok.injEq] at h
          subst h
          have : getAgents d = l := by simp [getAgents, hag]
          rw [this]
          exact strictValidateAgents_fields 0 l hv

theorem findAgentConfig_spec (agent_name : String) :
    ∀ l : List AgentConfig,
      (findAgentConfig agent_name l = none →
        ∀ c ∈ l, ¬(c.name = some agent_name)) ∧
      (∀ c, findAgentConfig agent_name l = some c →
        c.name = some agent_name ∧
        ∃ pre post, l = pre ++ c :: post ∧
          ∀ x ∈ pre, ¬(x.name = some agent_name)) := by
  intro l
  induction l with
  | nil =>
    constructor
    · intro _ c hc; exact absurd hc (List.not_mem_nil c)
    · intro c hc; exact absurd hc (by simp [findAgentConfig])
  | cons c cs ih =>
    by_cases hc : c.name = some agent_name
    · constructor
      · intro h
        simp only [findAgentConfig] at h
        rw [if_pos (by simp [hc])] at h
        exact absurd h (by simp)
      · intro d hd
        simp only [findAgentConfig] at hd
        rw [if_pos (by simp [hc])] at hd
        simp only [Option.some.injEq] at hd
        subst hd
        exact ⟨hc, [], cs, rfl, by intro x hx; exact absurd hx (List.not_mem_nil x)⟩
    · have hbeq : (c.name == some agent_name) = false := by
        simp only [beq_eq_false_iff_ne, ne_eq]; exact hc
      constructor
      · intro h d hd
        simp only [findAgentConfig, hbeq] at h
        simp only [Bool.false_eq_true, if_false] at h
        rcases List.mem_cons.mp hd with rfl | hd'
        · exact hc
        · exact (ih.1 h) d hd'
      · intro d hd
        simp only [findAgentConfig, hbeq] at hd
        simp only [Bool.false_eq_true, if_false] at hd
        obtain ⟨hdn, pre, post, heq, hpre⟩ := ih.2 d hd
        refine ⟨hdn, c :: pre, post, by simp [heq], ?_⟩
        intro x hx
        rcases List.mem_cons.mp hx with rfl | hx'
        · exact hc
        · exact hpre x hx'

theorem findSome_cons_of_isSome {p : Int × String → Bool} {seen : List (Int × String)}
    (x : Int × String) (h : (seen.find? p).isSome) :
    ((x :: seen).find? p).isSome := by
  cases hpx : p x with
  | true => simp [List.find?, hpx]
  | false => simpa [List.find?, hpx] using h

theorem validateDupOrderLoop_ok :
    ∀ (l : List AgentConfig) (seen : List (Int × String)),
      (l.filterMap AgentConfig.order).Nodup →
      (∀ o ∈ l.filterMap AgentConfig.order,
        seen.find? (fun q => q.1 == o) = none) →
      validateDupOrderLoop seen l = .ok () := by
  intro l
  induction l with
  | nil => intro _ _ _; rfl
  | cons c cs ih =>
    intro seen hnd hseen
    cases hco : c.order with
    | none =>
      simp only [validateDupOrderLoop, hco]
      have hfm : (c :: cs).filterMap AgentConfig.order = cs.filterMap AgentConfig.order := by
        simp [List.filterMap_cons, hco]
      exact ih seen (by rw [hfm] at hnd; exact hnd)
        (by intro o ho; exact hseen o (by rw [hfm]; exact ho))
    | some o =>
      have hfm : (c :: cs).filterMap AgentConfig.order =
          o :: cs.filterMap AgentConfig.order := by
        simp [List.filterMap_cons, hco]
      have hmem : o ∈ (c :: cs).filterMap AgentConfig.order := by
        rw [hfm]; exact List.mem_cons_self o _
      have hfind := hseen o hmem
      simp only [validateDupOrderLoop, hco, hfind]
      rw [hfm] at hnd
      have hno : o ∉ cs.filterMap AgentConfig.order := (List.nodup_cons.mp hnd).1
      refine ih _ (List.nodup_cons.mp hnd).2 ?_
      intro o' ho'
      have hne : (o : Int) ≠ o' := fun he => hno (he ▸ ho')
      simp only [List.find?]
      have : ((o, c.name.getD "unknown").1 == o') = false := by
        simpa using hne
      rw [this]
      exact hseen o' (by rw [hfm]; exact List.mem_cons_of_mem o ho')

theorem validateDupOrderLoop_err :
    ∀ (l : List AgentConfig) (seen : List (Int × String)) (prev : List AgentConfig),
      (∀ p ∈ seen, ∃ d ∈ prev, d.order = some p.1 ∧ p.2 = d.name.getD "unknown") →
      (∀ o : Int, o ∈ prev.filterMap AgentConfig.order →
        (seen.find? (fun q => q.1 == o)).isSome) →
      (∃ d1 d2, ∃ v : Int, d1.order = some v ∧ d2.order = some v ∧
        ((d1 ∈ prev ∧ d2 ∈ l) ∨ [d1, d2].Sublist l)) →
      ∃ v : Int, ∃ e1 e2 : AgentConfig,
        [e1, e2].Sublist (prev ++ l) ∧ e1.order = some v ∧ e2.order = some v ∧
        validateDupOrderLoop seen l =
          .error (.configurationError
            (mkDupOrderMsg v (e1.name.getD "unknown") (e2.name.getD "unknown"))) := by
  intro l
  induction l with
  | nil =>
    intro seen prev _ _ hdup
    obtain ⟨d1, d2, v, _, _, hcase⟩ := hdup
    rcases hcase with ⟨_, hd2⟩ | hsub
    · exact absurd hd2 (List.not_mem_nil d2)
    · rw [List.sublist_nil] at hsub
      simp at hsub
  | cons c cs ih =>
    intro seen prev hinv1 hinv2 hdup
    cases hco : c.order with
    | none =>
      have hres := ih seen (prev ++ [c])
        (by
          intro p hp
          obtain ⟨d, hd, h1, h2⟩ := hinv1 p hp
          exact ⟨d, List.mem_append_left _ hd, h1, h2⟩)
        (by
          intro o ho
          rw [List.filterMap_append] at ho
          rcases List.mem_append.mp ho with h | h
          · exact hinv2 o h
          · simp [List.filterMap_cons, hco] at h)
        (by
          obtain ⟨d1, d2, v, h1, h2, hcase⟩ := hdup
          rcases hcase with ⟨hd1, hd2⟩ | hsub
          · rcases List.mem_cons.mp hd2 with rfl | hd2'
            · rw [hco] at h2; exact absurd h2 (by simp)
            · exact ⟨d1, d2, v, h1, h2, Or.inl ⟨List.mem_append_left _ hd1, hd2'⟩⟩
          · cases hsub with
            | cons _ h => exact ⟨d1, d2, v, h1, h2, Or.inr h⟩
            | cons₂ _ h =>
              rw [hco] at h1; exact absurd h1 (by simp))
      obtain ⟨v, e1, e2, hsub, he1, he2, hloop⟩ := hres
      refine ⟨v, e1, e2, ?_, he1, he2, ?_⟩
      · simpa using hsub
      · simpa only [validateDupOrderLoop, hco] using hloop
    | some o =>
      cases hfind : seen.find? (fun q => q.1 == o) with
      | some p =>
        have hp : p ∈ seen := List.mem_of_find?_eq_some hfind
        have hpo := List.find?_some hfind
        have hpo' : p.1 = o := by simpa using hpo
        obtain ⟨d1, hd1, hdo, hdn⟩ := hinv1 p hp
        refine ⟨o, d1, c, ?_, by rw [hdo, hpo'], hco, ?_⟩
        · have h1 : [d1].Sublist prev := List.singleton_sublist.mpr hd1
          have h2 : [c].Sublist (c :: cs) :=
            List.singleton_sublist.mpr (List.mem_cons_self c cs)
          simpa using List.Sublist.append h1 h2
        · simp only [validateDupOrderLoop, hco, hfind]
          rw [hdn]
      | none =>
        have hres := ih ((o, c.name.getD "unknown") :: seen) (prev ++ [c])
          (by
            intro p hp
            rcases List.mem_cons.mp hp with rfl | hp'
            · exact ⟨c, List.mem_append_right _ (List.mem_cons_self c []), hco, rfl⟩
            · obtain ⟨d, hd, h1, h2⟩ := hinv1 p hp'
              exact ⟨d, List.mem_append_left _ hd, h1, h2⟩)
          (by
            intro o' ho'
            rw [List.filterMap_append] at ho'
            rcases List.mem_append.mp ho' with h | h
            · exact findSome_cons_of_isSome _ (hinv2 o' h)
            · have : o' = o := by simpa [List.filterMap_cons, hco] using h
              subst this
              simp [List.find?])
          (by
            obtain ⟨d1, d2, v, h1, h2, hcase⟩ := hdup
            rcases hcase with ⟨hd1, hd2⟩ | hsub
            · rcases List.mem_cons.mp hd2 with rfl | hd2'
              · rw [hco] at h2
                have hv : v = o := by simpa using h2.symm
                subst hv
                have : v ∈ prev.filterMap AgentConfig.order :=
                  List.mem_filterMap.mpr ⟨d1, hd1, h1⟩
                have := hinv2 v this
                rw [hfind] at this
                exact absurd this (by simp)
              · exact ⟨d1, d2, v, h1, h2, Or.inl ⟨List.mem_append_left _ hd1, hd2'⟩⟩
            · cases hsub with
              | cons _ h => exact ⟨d1, d2, v, h1, h2, Or.inr h⟩
              | cons₂ _ h =>
                exact ⟨c, d2, v, h1, h2, Or.inl
                  ⟨List.mem_append_right _ (List.mem_cons_self c []),
                    List.singleton_sublist.mp h⟩⟩)
        obtain ⟨v, e1, e2, hsub, he1, he2, hloop⟩ := hres
        refine ⟨v, e1, e2, ?_, he1, he2, ?_⟩
        · simpa using hsub
        · simpa only [validateDupOrderLoop, hco, hfind] using hloop

theorem toolLoop_ok (toolImp : String → ToolImportResult) (agent_name : String)
    (f : ToolConfig → String) :
    ∀ l : List ToolConfig,
      (∀ c ∈ l, (truthyStr c.name && truthyStr c.module && truthyStr c.function) = true →
        loadOneTool toolImp (c.name.getD "") (c.module.getD "") (c.function.getD "")
          agent_name = .ok (f c)) →
      toolLoop toolImp agent_name l =
        .ok (l.filterMap (fun c =>
          if truthyStr c.name && truthyStr c.module && truthyStr c.function then
            some (f c)
          else none)) := by
  intro l
  induction l with
  | nil => intro _; rfl
  | cons c cs ih =>
    intro hres
    have htail := ih (fun d hd hdc => hres d (List.mem_cons_of_mem c hd) hdc)
    by_cases hc : (truthyStr c.name && truthyStr c.module && truthyStr c.function) = true
    · have hok := hres c (List.mem_cons_self c cs) hc
      simp only [toolLoop]
      rw [if_pos hc, hok, htail]
      simp only [List.filterMap_cons]
      rw [if_pos hc]
    · simp only [Bool.not_eq_true] at hc
      simp only [toolLoop]
      rw [if_neg (by simp [hc]), htail]
      simp only [List.filterMap_cons]
      rw [if_neg (by simp [hc])]

theorem subAgentLoop_ok
    (loadFn : String → String → List ToolConfig → List AgentConfig → Except RegError String)
    (parent : String) (g : AgentConfig → String) :
    ∀ l : List AgentConfig,
      (∀ c ∈ l, (truthyStr c.name && truthyStr c.module) = true →
        loadFn (c.module.getD "") (c.name.getD "") c.tools c.sub_agents = .ok (g c)) →
      subAgentLoop loadFn parent l =
        .ok (l.filterMap (fun c =>
          if truthyStr c.name && truthyStr c.module then some (g c) else none)) := by
  intro l
  induction l with
  | nil => intro _; rfl
  | cons c cs ih =>
    intro hres
    have htail := ih (fun d hd hdc => hres d (List.mem_cons_of_mem c hd) hdc)
    by_cases hc : (truthyStr c.name && truthyStr c.module) = true
    · have hok := hres c (List.mem_cons_self c cs) hc
      simp only [subAgentLoop]
      rw [if_pos hc, hok, htail]
      simp only [List.filterMap_cons]
      rw [if_pos hc]
    · simp only [Bool.not_eq_true] at hc
      simp only [subAgentLoop]
      rw [if_neg (by simp [hc]), htail]
      simp only [List.filterMap_cons]
      rw [if_neg (by simp [hc])]

theorem subDiscoverAgent_eq_map (m : PyModule) (agent_name module_path : String)
    (tools sub_agents : List String) :
    subDiscoverAgent m agent_name module_path tools sub_agents =
      (discoverAgent m agent_name module_path).map
        (fun a => attachIfAny a tools sub_agents) := by
  unfold subDiscoverAgent discoverAgent
  cases hattr : getAttrM m agent_name with
  | some v =>
    cases v with
    | agentVal a => rfl
    | otherVal t =>
      cases hc : agentCandidates m with
      | nil =>
        cases hs : scanAgents m with
        | nil => rfl
        | cons a rest => rfl
      | cons c1 cs =>
        cases cs with
        | nil => rfl
        | cons c2 rest =>
          cases hf : (c1 :: c2 :: rest).find?
              (fun q => q.1 == agent_name || q.2.name == agent_name) with
          | none => simp [hf, Except.map]
          | some q => simp [hf, Except.map]
  | none =>
    cases hc : agentCandidates m with
    | nil =>
      cases hs : scanAgents m with
      | nil => rfl
      | cons a rest => rfl
    | cons c1 cs =>
      cases cs with
      | nil => rfl
      | cons c2 rest =>
        cases hf : (c1 :: c2 :: rest).find?
            (fun q => q.1 == agent_name || q.2.name == agent_name) with
        | none => simp [hf, Except.map]
        | some q => simp [hf, Except.map]

theorem getAttrM_mem (m : PyModule) (n : String) (v : PyVal)
    (h : getAttrM m n = some v) : ∃ q ∈ m.attrs, q.2 = v := by
  unfold getAttrM at h
  cases hfq : m.attrs.find? (fun p => p.1 == n) with
  | none => rw [hfq] at h; exact absurd h (by simp)
  | some q =>
    rw [hfq] at h
    simp only [Option.map_some', Option.some.injEq] at h
    exact ⟨q, List.mem_of_find?_eq_some hfq, h⟩

theorem agentCandidates_nil_of_no_agent (m : PyModule)
    (h : ∀ q ∈ m.attrs, isAgentVal q.2 = false) : agentCandidates m = [] := by
  unfold agentCandidates
  rw [List.filterMap_eq_nil_iff]
  intro p hp
  have hv := h p hp
  cases hpv : p.2 with
  | agentVal a => rw [hpv] at hv; simp [isAgentVal] at hv
  | otherVal t =>
    cases hcond : (strEndsWith p.1 "_agent" && ! strStartsWith p.1 "_") <;>
      simp [hpv, hcond]

theorem scanAgents_nil_of_no_agent (m : PyModule)
    (h : ∀ q ∈ m.attrs, isAgentVal q.2 = false) : scanAgents m = [] := by
  unfold scanAgents
  rw [List.filterMap_eq_nil_iff]
  intro p hp
  have hv := h p hp
  cases hpv : p.2 with
  | agentVal a => rw [hpv] at hv; simp [isAgentVal] at hv
  | otherVal t =>
    cases hcond : (! strStartsWith p.1 "_") <;> simp [hpv, hcond]

/-! ## Claims -/

/-- **C9.** When the manifest file does not exist, the lenient parser's
`parse()` returns an empty document (`{'agents': []}`, i.e. an empty entry
list) without error, while the strict parser treats a missing file as a fatal
`ConfigurationError` (raised at construction, before any `parse()` can run);
and in both variants empty or unparsable (YAML error / read error) content is
always a fatal `ConfigurationError`.  `AgentsRegistry` fixes the strict policy
(its `loadAgents` calls `strictParse`); the sub-agents registries fix the
lenient policy. -/
theorem C9_parser_policies (path e : String) :
    lenientParse .missing = .ok { agents := some (.agentsList []) } ∧
    getAgents { agents := some (.agentsList []) } = [] ∧
    strictParse path .missing =
      .error (.configurationError (mkFileNotFoundMsg path)) ∧
    lenientParse .emptyContent =
      .error (.configurationError "Configuration file is empty") ∧
    strictParse path .emptyContent =
      .error (.configurationError "Configuration file is empty") ∧
    lenientParse (.yamlError e) =
      .error (.configurationError (mkYamlFailMsg e)) ∧
    strictParse path (.yamlError e) =
      .error (.configurationError (mkYamlFailMsg e)) ∧
    lenientParse (.readError e) =
      .error (.configurationError (mkReadFailMsg e)) ∧
    strictParse path (.readError e) =
      .error (.configurationError (mkReadFailMsg e)) :=
  ⟨rfl, rfl, rfl, rfl, rfl, rfl, rfl, rfl, rfl⟩

/-- **C5.** Resolving an entry whose module path cannot be imported
(`ImportError`) fails with `AgentNotFoundError`, while resolving an importable
module that contains no `Agent` instance at all fails with `AgentLoadError`;
the two failures are distinct constructors of the exception taxonomy, not just
different messages. -/
theorem C5_error_kinds (imp : String → ImportResult)
    (p1 n1 e1 p2 n2 : String) (m2 : PyModule)
    (h1 : imp p1 = .importError e1)
    (h2 : imp p2 = .ok m2)
    (hno : ∀ q ∈ m2.attrs, isAgentVal q.2 = false) :
    loadAgentFromModule imp p1 n1 =
      .error (.agentNotFoundError (mkImportNotFoundMsg p1 n1 e1)) ∧
    loadAgentFromModule imp p2 n2 =
      .error (.agentLoadError (mkNoAgentMsg p2 n2) none) ∧
    ∀ (s t : String) (c : Option RegError),
      RegError.agentNotFoundError s ≠ RegError.agentLoadError t c := by
  refine ⟨by simp [loadAgentFromModule, h1], ?_, by intro s t c h; cases h⟩
  have hcand := agentCandidates_nil_of_no_agent m2 hno
  have hscan := scanAgents_nil_of_no_agent m2 hno
  have hdisc : discoverAgent m2 n2 p2 = .error (.agentLoadError (mkNoAgentMsg p2 n2) none) := by
    cases hattr : getAttrM m2 n2 with
    | none => simp [discoverAgent, hattr, hcand, hscan]
    | some v =>
      obtain ⟨q, hq, hq2⟩ := getAttrM_mem m2 n2 v hattr
      have hv := hno q hq
      rw [hq2] at hv
      cases v with
      | agentVal a => simp [isAgentVal] at hv
      | otherVal t => simp [discoverAgent, hattr, hcand, hscan]
  simp [loadAgentFromModule, h2, hdisc]

/-- **C5 witness.** A concrete import environment: one unimportable path,
one importable module exporting only a non-`Agent` symbol. -/
theorem C5_error_kinds_witness :
    loadAgentFromModule
        (fun p => if p == "gone.mod" then .importError "No module named 'gone'"
                  else .ok { attrs := [("helper", .otherVal "fn")] })
        "gone.mod" "wiki" =
      .error (.agentNotFoundError (mkImportNotFoundMsg "gone.mod" "wiki"
        "No module named 'gone'")) ∧
    loadAgentFromModule
        (fun p => if p == "gone.mod" then .importError "No module named 'gone'"
                  else .ok { attrs := [("helper", .otherVal "fn")] })
        "has.mod" "wiki" =
      .error (.agentLoadError (mkNoAgentMsg "has.mod" "wiki") none) := by
  have h := C5_error_kinds
    (fun p => if p == "gone.mod" then .importError "No module named 'gone'"
              else .ok { attrs := [("helper", .otherVal "fn")] })
    "gone.mod" "wiki" "No module named 'gone'" "has.mod" "wiki"
    { attrs := [("helper", .otherVal "fn")] }
    (by rfl) (by rfl)
    (by intro q hq; simp at hq; rw [hq]; rfl)
  exact ⟨h.1, h.2.1⟩

/-- **C7.** When discovery finds two or more `_agent`-suffixed candidates and
none has a symbol name or embedded `agent.name` equal to the requested name
(and the exact-name attribute lookup did not already produce an `Agent`),
loading fails with an `AgentLoadError` whose message carries the full candidate
name list — in both loader variants; no candidate is silently picked. -/
theorem C7_ambiguous (m : PyModule) (agent_name module_path : String)
    (tools sub_agents : List String)
    (c1 c2 : String × Agent) (rest : List (String × Agent))
    (hattr : ∀ v, getAttrM m agent_name = some v → isAgentVal v = false)
    (hc : agentCandidates m = c1 :: c2 :: rest)
    (hf : (c1 :: c2 :: rest).find?
      (fun q => q.1 == agent_name || q.2.name == agent_name) = none) :
    discoverAgent m agent_name module_path =
      .error (.agentLoadError
        (mkAmbiguousMsg ((c1 :: c2 :: rest).map Prod.fst) module_path agent_name)
        none) ∧
    subDiscoverAgent m agent_name module_path tools sub_agents =
      .error (.agentLoadError
        (mkAmbiguousMsg ((c1 :: c2 :: rest).map Prod.fst) module_path agent_name)
        none) := by
  have hd : discoverAgent m agent_name module_path =
      .error (.agentLoadError
        (mkAmbiguousMsg ((c1 :: c2 :: rest).map Prod.fst) module_path agent_name)
        none) := by
    cases hga : getAttrM m agent_name with
    | none => simp [discoverAgent, hga, hc, hf]
    | some v =>
      have hv := hattr v hga
      cases v with
      | agentVal a => simp [isAgentVal] at hv
      | otherVal t => simp [discoverAgent, hga, hc, hf]
  exact ⟨hd, by rw [subDiscoverAgent_eq_map, hd]; rfl⟩

/-- **C7 witness.** A module exporting two `_agent` instances, neither matching
the requested component name by symbol nor by embedded name. -/
theorem C7_ambiguous_witness :
    discoverAgent
        { attrs := [
            ("alpha_agent", .agentVal
              { model := "g", name := "alpha", description := "", instruction := "",
                tools := [], sub_agents := [] }),
            ("beta_agent", .agentVal
              { model := "g", name := "beta", description := "", instruction := "",
                tools := [], sub_agents := [] })] }
        "gamma" "pkg.mod" =
      .error (.agentLoadError
        (mkAmbiguousMsg ["alpha_agent", "beta_agent"] "pkg.mod" "gamma") none) := by
  have h := C7_ambiguous
    { attrs := [
        ("alpha_agent", .agentVal
          { model := "g", name := "alpha", description := "", instruction := "",
            tools := [], sub_agents := [] }),
        ("beta_agent", .agentVal
          { model := "g", name := "beta", description := "", instruction := "",
            tools := [], sub_agents := [] })] }
    "gamma" "pkg.mod" [] []
    ("alpha_agent",
      { model := "g", name := "alpha", description := "", instruction := "",
        tools := [], sub_agents := [] })
    ("beta_agent",
      { model := "g", name := "beta", description := "", instruction := "",
        tools := [], sub_agents := [] })
    []
    (by
      have hnone : getAttrM
          { attrs := [
              ("alpha_agent", .agentVal
                { model := "g", name := "alpha", description := "", instruction := "",
                  tools := [], sub_agents := [] }),
              ("beta_agent", .agentVal
                { model := "g", name := "beta", description := "", instruction := "",
                  tools := [], sub_agents := [] })] } "gamma" = none := by decide
      intro v hv
      rw [hnone] at hv
      cases hv)
    (by decide) (by decide)
  exact h.1

/-- **C4.** Whenever discovery succeeds with instance `a`, the
tool/sub-agent-attaching loader returns: the very same discovered instance
when both resolved lists are empty (no rebuild); otherwise a new instance
carrying the original's `model`, `name`, `description` and `instruction`,
whose `tools` and `sub_agents` are exactly the resolved lists (the original's
lists are fully replaced, not merged). -/
theorem C4_rebuild (m : PyModule) (agent_name module_path : String)
    (tools sub_agents : List String) (a : Agent)
    (h : discoverAgent m agent_name module_path = .ok a) :
    (tools = [] → sub_agents = [] →
      subDiscoverAgent m agent_name module_path tools sub_agents = .ok a) ∧
    (¬(tools = [] ∧ sub_agents = []) →
      subDiscoverAgent m agent_name module_path tools sub_agents =
        .ok { model := a.model, name := a.name, description := a.description,
              instruction := a.instruction, tools := tools,
              sub_agents := sub_agents }) := by
  rw [subDiscoverAgent_eq_map, h]
  constructor
  · rintro rfl rfl; rfl
  · intro hne
    have hcond : (!tools.isEmpty || !sub_agents.isEmpty) = true := by
      rcases tools with _ | ⟨t, ts⟩
      · rcases sub_agents with _ | ⟨s, ss⟩
        · exact absurd ⟨rfl, rfl⟩ hne
        · simp
      · simp
    simp only [Except.map]
    unfold attachIfAny
    rw [if_pos hcond]
    rfl

/-- **C4 witness.** One concrete module; attaching `["search"]` rebuilds with
exactly that tool list, attaching nothing returns the discovered instance. -/
theorem C4_rebuild_witness :
    subDiscoverAgent
        { attrs := [("wiki_agent", .agentVal
            { model := "g", name := "wiki", description := "d", instruction := "i",
              tools := ["old"], sub_agents := ["oldsub"] })] }
        "wiki_agent" "pkg.mod" ["search"] [] =
      .ok { model := "g", name := "wiki", description := "d", instruction := "i",
            tools := ["search"], sub_agents := [] } ∧
    subDiscoverAgent
        { attrs := [("wiki_agent", .agentVal
            { model := "g", name := "wiki", description := "d", instruction := "i",
              tools := ["old"], sub_agents := ["oldsub"] })] }
        "wiki_agent" "pkg.mod" [] [] =
      .ok { model := "g", name := "wiki", description := "d", instruction := "i",
            tools := ["old"], sub_agents := ["oldsub"] } := by
  have h := C4_rebuild
    { attrs := [("wiki_agent", .agentVal
        { model := "g", name := "wiki", description := "d", instruction := "i",
          tools := ["old"], sub_agents := ["oldsub"] })] }
    "wiki_agent" "pkg.mod" ["search"] []
    { model := "g", name := "wiki", description := "d", instruction := "i",
      tools := ["old"], sub_agents := ["oldsub"] }
    (by rfl)
  have h0 := C4_rebuild
    { attrs := [("wiki_agent", .agentVal
        { model := "g", name := "wiki", description := "d", instruction := "i",
          tools := ["old"], sub_agents := ["oldsub"] })] }
    "wiki_agent" "pkg.mod" [] []
    { model := "g", name := "wiki", description := "d", instruction := "i",
      tools := ["old"], sub_agents := ["oldsub"] }
    (by rfl)
  exact ⟨h.2 (by intro hc; exact absurd hc.1 (by simp)), h0.1 rfl rfl⟩

/-- **C8 counterexample.** A top-level manifest entry lacking its `module`
locator is *not* skipped by the strict parser: `parse()` aborts with a fatal
`ConfigurationError` (`yaml_parser.py:validate_config` raises on missing
required fields), contradicting the claim that an entry lacking `name` or
`locator` is skipped with a warning rather than aborting the parse. -/
theorem C8_counterexample :
    strictParse "agents_registry.yaml"
        (.content { agents := some (.agentsList
          [.mk (some "wiki") none (some true) (some 1) [] []]) }) =
      .error (.configurationError (mkMissingFieldsMsg "wiki")) := by
  rfl

/-- **C8 (amended).** *Nested* tool entries lacking a truthy `name`, `module`
or `function` — and nested sub-agent entries lacking a truthy `name` or
`module` — are skipped with a warning by the attachment loops of
`SubAgentLoader`: they contribute nothing to the resulting capability /
sub-component lists and the remaining entries are still processed (no abort).
Top-level entries lacking required fields are *not* skipped: the strict parser
aborts the parse (see the counterexample). -/
theorem C8_nested_skip (toolImp : String → ToolImportResult)
    (agent_name parent : String)
    (tool_configs : List ToolConfig) (f : ToolConfig → String)
    (loadFn : String → String → List ToolConfig → List AgentConfig →
      Except RegError String)
    (sub_configs : List AgentConfig) (g : AgentConfig → String)
    (hres : ∀ c ∈ sortByKey toolOrderKey (tool_configs.filter toolEnabledP),
      (truthyStr c.name && truthyStr c.module && truthyStr c.function) = true →
      loadOneTool toolImp (c.name.getD "") (c.module.getD "") (c.function.getD "")
        agent_name = .ok (f c))
    (hres2 : ∀ c ∈ sortByKey orderKey (sub_configs.filter enabledP),
      (truthyStr c.name && truthyStr c.module) = true →
      loadFn (c.module.getD "") (c.name.getD "") c.tools c.sub_agents = .ok (g c)) :
    loadToolsForAgent toolImp tool_configs agent_name =
      .ok ((sortByKey toolOrderKey (tool_configs.filter toolEnabledP)).filterMap
        (fun c =>
          if truthyStr c.name && truthyStr c.module && truthyStr c.function then
            some (f c)
          else none)) ∧
    loadSubAgentsForAgent loadFn sub_configs parent =
      .ok ((sortByKey orderKey (sub_configs.filter enabledP)).filterMap
        (fun c => if truthyStr c.name && truthyStr c.module then some (g c)
                  else none)) :=
  ⟨toolLoop_ok toolImp agent_name f _ hres,
    subAgentLoop_ok loadFn parent g _ hres2⟩

/-- **C8 witness.** Two enabled tool entries, one lacking `function`: the
incomplete one is skipped, the other is loaded; one enabled sub-agent entry
lacking `module` is skipped while a complete one loads. -/
theorem C8_nested_skip_witness :
    loadToolsForAgent
        (fun _ => .ok { attrs := [("search", .callableVal "search_fn")] })
        [{ name := some "broken", module := some "pkg.tools", function := none,
           enabled := some true, order := some 1 },
         { name := some "search", module := some "pkg.tools",
           function := some "search", enabled := some true, order := some 2 }]
        "wiki" = .ok ["search_fn"] ∧
    loadSubAgentsForAgent (fun _ _ _ _ => .ok "loaded_sub")
        [AgentConfig.mk (some "orphan") none (some true) (some 1) [] [],
         AgentConfig.mk (some "child") (some "pkg.sub") (some true) (some 2) [] []]
        "wiki" = .ok ["loaded_sub"] := by
  have h := C8_nested_skip
    (fun _ => .ok { attrs := [("search", .callableVal "search_fn")] })
    "wiki" "wiki"
    [{ name := some "broken", module := some "pkg.tools", function := none,
       enabled := some true, order := some 1 },
     { name := some "search", module := some "pkg.tools",
       function := some "search", enabled := some true, order := some 2 }]
    (fun _ => "search_fn")
    (fun _ _ _ _ => .ok "loaded_sub")
    [AgentConfig.mk (some "orphan") none (some true) (some 1) [] [],
     AgentConfig.mk (some "child") (some "pkg.sub") (some true) (some 2) [] []]
    (fun _ => "loaded_sub")
    (by
      intro c hc hcond
      rw [show sortByKey toolOrderKey
          (List.filter toolEnabledP
            [{ name := some "broken", module := some "pkg.tools", function := none,
               enabled := some true, order := some 1 },
             { name := some "search", module := some "pkg.tools",
               function := some "search", enabled := some true, order := some 2 }]) =
          [{ name := some "broken", module := some "pkg.tools", function := none,
             enabled := some true, order := some 1 },
           { name := some "search", module := some "pkg.tools",
             function := some "search", enabled := some true, order := some 2 }] from
          by decide] at hc
      rcases List.mem_cons.mp hc with rfl | hc2
      · exact absurd hcond (by decide)
      · rcases List.mem_cons.mp hc2 with rfl | hc3
        · rfl
        · exact absurd hc3 (List.not_mem_nil c))
    (by intro c _ _; rfl)
  exact ⟨h.1, h.2⟩

/-- **C6 counterexample.** The strict agents-registry parser
(`yaml_parser.py`, cited by the claim) performs *no* duplicate-order check:
`parse()` succeeds on a manifest whose two enabled entries both declare
`order = 1`, contradicting the claim that such a manifest fails `parse()`
with a `ConfigurationError`. -/
theorem C6_counterexample :
    strictParse "agents_registry.yaml"
        (.content { agents := some (.agentsList
          [.mk (some "wikipedia") (some "m1") (some true) (some 1) [] [],
           .mk (some "summarizer") (some "m2") (some true) (some 1) [] []]) }) =
      .ok { agents := some (.agentsList
          [.mk (some "wikipedia") (some "m1") (some true) (some 1) [] [],
           .mk (some "summarizer") (some "m2") (some true) (some 1) [] []]) } ∧
    enabledP (.mk (some "wikipedia") (some "m1") (some true) (some 1) [] []) = true ∧
    enabledP (.mk (some "summarizer") (some "m2") (some true) (some 1) [] []) = true ∧
    (AgentConfig.mk (some "wikipedia") (some "m1") (some true) (some 1) [] []).order =
      some 1 ∧
    (AgentConfig.mk (some "summarizer") (some "m2") (some true) (some 1) [] []).order =
      some 1 :=
  ⟨rfl, rfl, rfl, rfl, rfl⟩

/-- **C6 (amended).** The *lenient* (sub-agents) registry parsers do enforce
order uniqueness: provided the earlier `(name, module)`-uniqueness check
passes, a manifest containing two enabled entries that both declare the same
`order` fails `parse()` with a `ConfigurationError` whose message carries the
names of two distinct enabled same-order entries (the first duplicate
encountered); disabled entries and entries that declare no `order` are exempt
(a manifest whose enabled declared orders are pairwise distinct always passes
the check).  The strict agents-registry parser performs no such check (see the
counterexample). -/
theorem C6_dup_order (agents : List AgentConfig) (v : Int) (c1 c2 : AgentConfig)
    (hnm : validateDupNameModule [] 0 agents = .ok ())
    (hsub : [c1, c2].Sublist (agents.filter enabledP))
    (h1 : c1.order = some v) (h2 : c2.order = some v) :
    (∃ w : Int, ∃ e1 e2 : AgentConfig,
      [e1, e2].Sublist (agents.filter enabledP) ∧
      e1.order = some w ∧ e2.order = some w ∧
      lenientParse (.content { agents := some (.agentsList agents) }) =
        .error (.configurationError
          (mkDupOrderMsg w (e1.name.getD "unknown") (e2.name.getD "unknown")))) ∧
    (∀ others : List AgentConfig,
      ((others.filter enabledP).filterMap AgentConfig.order).Nodup →
      validateDupOrder others = .ok ()) := by
  constructor
  · obtain ⟨w, e1, e2, hs, he1, he2, hloop⟩ :=
      validateDupOrderLoop_err (agents.filter enabledP) [] []
        (by intro p hp; exact absurd hp (List.not_mem_nil p))
        (by intro o ho; simp at ho)
        ⟨c1, c2, v, h1, h2, Or.inr hsub⟩
    refine ⟨w, e1, e2, by simpa using hs, he1, he2, ?_⟩
    simp only [lenientParse, lenientValidateAgents, hnm]
    have : validateDupOrder agents =
        .error (.configurationError
          (mkDupOrderMsg w (e1.name.getD "unknown") (e2.name.getD "unknown"))) := by
      unfold validateDupOrder
      exact hloop
    rw [this]
  · intro others hnd
    unfold validateDupOrder
    exact validateDupOrderLoop_ok (others.filter enabledP) [] hnd
      (by intro o _; rfl)

/-- **C6 witness.** A concrete two-entry manifest with duplicate enabled
`order` values: the lenient parse fails naming both entries. -/
theorem C6_dup_order_witness :
    lenientParse (.content { agents := some (.agentsList
        [.mk (some "wikipedia") (some "m1") (some true) (some 7) [] [],
         .mk (some "summarizer") (some "m2") (some true) (some 7) [] []]) }) =
      .error (.configurationError (mkDupOrderMsg 7 "wikipedia" "summarizer")) := by
  obtain ⟨h, _⟩ := C6_dup_order
    [.mk (some "wikipedia") (some "m1") (some true) (some 7) [] [],
     .mk (some "summarizer") (some "m2") (some true) (some 7) [] []]
    7
    (.mk (some "wikipedia") (some "m1") (some true) (some 7) [] [])
    (.mk (some "summarizer") (some "m2") (some true) (some 7) [] [])
    (by rfl)
    (by
      have : List.filter enabledP
          [AgentConfig.mk (some "wikipedia") (some "m1") (some true) (some 7) [] [],
           AgentConfig.mk (some "summarizer") (some "m2") (some true) (some 7) [] []] =
          [AgentConfig.mk (some "wikipedia") (some "m1") (some true) (some 7) [] [],
           AgentConfig.mk (some "summarizer") (some "m2") (some true) (some 7) [] []] := rfl
      rw [this])
    rfl rfl
  obtain ⟨w, e1, e2, hs, he1, he2, hparse⟩ := h
  have : lenientParse (.content { agents := some (.agentsList
      [.mk (some "wikipedia") (some "m1") (some true) (some 7) [] [],
       .mk (some "summarizer") (some "m2") (some true) (some 7) [] []]) }) =
      .error (.configurationError (mkDupOrderMsg 7 "wikipedia" "summarizer")) := by
    rfl
  exact this

/-- **C1 counterexample.** The default sort key is the sentinel `999`, not
"after everything": an enabled entry declaring `order = 1000` sorts *after* an
enabled entry declaring no `order` at all (key 999), so the loaded list starts
with the order-less entry — contradicting the claim that entries without
`order` sort after all entries that declare one. -/
theorem C1_counterexample :
    subRegistryLoadAgents
        (fun c => .ok { model := "g", name := c.name.getD "", description := "",
                        instruction := "", tools := [], sub_agents := [] })
        [.mk (some "first") (some "mod1") (some true) none [] [],
         .mk (some "second") (some "mod2") (some true) (some 1000) [] []] =
      .ok [{ model := "g", name := "first", description := "", instruction := "",
             tools := [], sub_agents := [] },
           { model := "g", name := "second", description := "", instruction := "",
             tools := [], sub_agents := [] }] ∧
    (AgentConfig.mk (some "first") (some "mod1") (some true) none [] []).order =
      none ∧
    (AgentConfig.mk (some "second") (some "mod2") (some true) (some 1000) [] []).order =
      some 1000 ∧
    enabledP (.mk (some "first") (some "mod1") (some true) none [] []) = true ∧
    enabledP (.mk (some "second") (some "mod2") (some true) (some 1000) [] []) = true :=
  ⟨rfl, rfl, rfl, rfl, rfl⟩

/-- **C1 (amended).** For every manifest with `k` enabled entries whose
enabled entries all carry a `name` and `module` and all resolve, `load()`
returns exactly `k` resolved components — one per enabled entry and none for a
disabled one — sorted ascending by the key `order-or-999` (an entry without
`order` is given the sentinel key `999`, so it sorts after all entries with
`order < 999` but *before* entries with `order > 999`), with ties — including
an explicit `order = 999` against an absent `order` — broken stably by
manifest declaration order. -/
theorem C1_load_order (agent_configs : List AgentConfig)
    (loadFn : AgentConfig → Except RegError Agent) (f : AgentConfig → Agent)
    (hfields : ∀ c ∈ agent_configs, enabledP c = true →
      c.name.isSome ∧ c.module.isSome)
    (hload : ∀ c ∈ agent_configs, enabledP c = true → loadFn c = .ok (f c)) :
    ∃ cs : List AgentConfig,
      subRegistryLoadAgents loadFn agent_configs = .ok (cs.map f) ∧
      (cs.map f).length = (agent_configs.filter enabledP).length ∧
      cs.Perm (agent_configs.filter enabledP) ∧
      cs.Pairwise (fun a b => orderKey a ≤ orderKey b) ∧
      (∀ v : Int, cs.filter (fun c => orderKey c == v) =
        (agent_configs.filter enabledP).filter (fun c => orderKey c == v)) := by
  have hmem : ∀ c ∈ sortEnabled agent_configs,
      c ∈ agent_configs ∧ enabledP c = true := by
    intro c hc
    have : c ∈ agent_configs.filter enabledP :=
      (sortByKey_perm orderKey (agent_configs.filter enabledP)).mem_iff.mp hc
    exact ⟨List.mem_of_mem_filter this, List.of_mem_filter this⟩
  refine ⟨sortEnabled agent_configs, ?_, ?_, ?_, ?_, ?_⟩
  · unfold subRegistryLoadAgents
    exact subRegistryLoop_ok loadFn f _
      (fun c hc => hfields c (hmem c hc).1 (hmem c hc).2)
      (fun c hc => hload c (hmem c hc).1 (hmem c hc).2)
  · rw [List.length_map]
    exact (sortByKey_perm orderKey (agent_configs.filter enabledP)).length_eq
  · exact sortByKey_perm orderKey (agent_configs.filter enabledP)
  · exact sortByKey_pairwise orderKey (agent_configs.filter enabledP)
  · intro v
    exact sortByKey_stable orderKey v (agent_configs.filter enabledP)

/-- **C1 witness.** Three entries — two enabled (orders 2 and 1), one
disabled: the two enabled entries load in ascending order, the disabled one is
absent. -/
theorem C1_load_order_witness :
    ∃ cs : List AgentConfig,
      subRegistryLoadAgents
          (fun c => .ok { model := "g", name := c.name.getD "", description := "",
                          instruction := "", tools := [], sub_agents := [] })
          [.mk (some "b") (some "mb") (some true) (some 2) [] [],
           .mk (some "a") (some "ma") (some true) (some 1) [] [],
           .mk (some "c") (some "mc") (some false) (some 3) [] []] =
        .ok (cs.map (fun c =>
          { model := "g", name := c.name.getD "", description := "",
            instruction := "", tools := [], sub_agents := [] })) ∧
      (cs.map (fun c =>
          ({ model := "g", name := c.name.getD "", description := "",
             instruction := "", tools := [], sub_agents := [] } : Agent))).length =
        (List.filter enabledP
          [.mk (some "b") (some "mb") (some true) (some 2) [] [],
           .mk (some "a") (some "ma") (some true) (some 1) [] [],
           .mk (some "c") (some "mc") (some false) (some 3) [] []]).length ∧
      cs.Perm (List.filter enabledP
          [.mk (some "b") (some "mb") (some true) (some 2) [] [],
           .mk (some "a") (some "ma") (some true) (some 1) [] [],
           .mk (some "c") (some "mc") (some false) (some 3) [] []]) ∧
      cs.Pairwise (fun a b => orderKey a ≤ orderKey b) ∧
      (∀ v : Int, cs.filter (fun c => orderKey c == v) =
        (List.filter enabledP
          [.mk (some "b") (some "mb") (some true) (some 2) [] [],
           .mk (some "a") (some "ma") (some true) (some 1) [] [],
           .mk (some "c") (some "mc") (some false) (some 3) [] []]).filter
          (fun c => orderKey c == v)) := by
  exact C1_load_order
    [.mk (some "b") (some "mb") (some true) (some 2) [] [],
     .mk (some "a") (some "ma") (some true) (some 1) [] [],
     .mk (some "c") (some "mc") (some false) (some 3) [] []]
    (fun c => .ok { model := "g", name := c.name.getD "", description := "",
                    instruction := "", tools := [], sub_agents := [] })
    (fun c => { model := "g", name := c.name.getD "", description := "",
                instruction := "", tools := [], sub_agents := [] })
    (by
      intro c hc he
      rcases List.mem_cons.mp hc with rfl | hc2
      · exact ⟨rfl, rfl⟩
      · rcases List.mem_cons.mp hc2 with rfl | hc3
        · exact ⟨rfl, rfl⟩
        · rcases List.mem_cons.mp hc3 with rfl | hc4
          · exact ⟨rfl, rfl⟩
          · exact absurd hc4 (List.not_mem_nil c))
    (by intro c _ _; rfl)

/-- **C2.** If any enabled entry of a successfully parsed manifest fails to
resolve, `load_agents()` fails with an `AgentLoadError` whose message is built
from the failing entry's name and module path (the message literally embeds
both) and which chains the underlying cause, and the registry's cached
composition (`_loaded_agents`) is left exactly as it was — no partial result
is returned or cached. -/
theorem C2_atomic_failure (env : AgentsEnv) (st : RegState) (force_reload : Bool)
    (cfg : RawDoc)
    (hnc : st.loadedAgents = none ∨ force_reload = true)
    (hparse : strictParse env.path env.input = .ok cfg)
    (hfail : ∃ c ∈ sortEnabled (getAgents cfg), ∃ e,
      loadAgentFromModule env.imp (c.module.getD "") (c.name.getD "") = .error e) :
    ∃ n m e,
      (loadAgents env force_reload st).1 =
        .error (.agentLoadError (mkLoadFailMsg n m (errMsg e)) (some e)) ∧
      (∃ c ∈ sortEnabled (getAgents cfg), c.name = some n ∧ c.module = some m ∧
        loadAgentFromModule env.imp m n = .error e) ∧
      mkLoadFailMsg n m (errMsg e) =
        "Failed to load agent '" ++ n ++ "' from '" ++ m ++ "': " ++ errMsg e ∧
      (loadAgents env force_reload st).2.1.loadedAgents = st.loadedAgents := by
  have hfields : ∀ c ∈ sortEnabled (getAgents cfg),
      c.name.isSome ∧ c.module.isSome ∧ c.order.isSome := by
    intro c hc
    have hmem : c ∈ (getAgents cfg).filter enabledP :=
      (sortByKey_perm orderKey _).mem_iff.mp hc
    have h4 := strictParse_fields env.path env.input cfg hparse c
      (List.mem_of_mem_filter hmem)
    exact ⟨h4.1, h4.2.1, h4.2.2.2⟩
  obtain ⟨n, m, e, herr, hwit⟩ := agentsLoadLoop_err env.imp _ hfields hfail
  have hbranch : loadAgents env force_reload st =
      (match agentsLoadLoop env.imp (sortEnabled (getAgents cfg)) with
        | (.ok l, evs) =>
          (.ok l, { config := some cfg, loadedAgents := some l },
            Event.parseCall :: evs)
        | (.error e', evs) =>
          (.error e', { config := some cfg, loadedAgents := st.loadedAgents },
            Event.parseCall :: evs)) := by
    rcases hnc with h | h
    · cases force_reload <;> simp only [loadAgents, h, hparse]
    · subst h
      cases hla : st.loadedAgents <;> simp only [loadAgents, hla, hparse]
  refine ⟨n, m, e, ?_, hwit, rfl, ?_⟩ <;>
    (rw [hbranch];
     cases hloop : agentsLoadLoop env.imp (sortEnabled (getAgents cfg)) with
     | mk r evs =>
       rw [hloop] at herr
       simp only at herr
       cases r with
       | ok l => exact absurd herr (by simp)
       | error e' =>
         simp only [Except.error.injEq] at herr
         subst herr
         rfl)

/-- **C2 witness.** A registry over a one-entry manifest whose module fails
to import: `load_agents` fails with the wrapped `AgentLoadError` and the
(empty) cache is unchanged. -/
theorem C2_atomic_failure_witness :
    ∃ n m e,
      (loadAgents
        { path := "agents_registry.yaml",
          input := .content { agents := some (.agentsList
            [.mk (some "wiki") (some "gone.mod") (some true) (some 1) [] []]) },
          imp := fun _ => .importError "No module named 'gone'" }
        false { config := none, loadedAgents := none }).1 =
        .error (.agentLoadError (mkLoadFailMsg n m (errMsg e)) (some e)) ∧
      (∃ c ∈ sortEnabled (getAgents { agents := some (.agentsList
          [.mk (some "wiki") (some "gone.mod") (some true) (some 1) [] []]) }),
        c.name = some n ∧ c.module = some m ∧
        loadAgentFromModule (fun _ => .importError "No module named 'gone'") m n =
          .error e) ∧
      mkLoadFailMsg n m (errMsg e) =
        "Failed to load agent '" ++ n ++ "' from '" ++ m ++ "': " ++ errMsg e ∧
      (loadAgents
        { path := "agents_registry.yaml",
          input := .content { agents := some (.agentsList
            [.mk (some "wiki") (some "gone.mod") (some true) (some 1) [] []]) },
          imp := fun _ => .importError "No module named 'gone'" }
        false { config := none, loadedAgents := none }).2.1.loadedAgents =
        (({ config := none, loadedAgents := none } : RegState)).loadedAgents := by
  exact C2_atomic_failure
    { path := "agents_registry.yaml",
      input := .content { agents := some (.agentsList
        [.mk (some "wiki") (some "gone.mod") (some true) (some 1) [] []]) },
      imp := fun _ => .importError "No module named 'gone'" }
    { config := none, loadedAgents := none } false
    { agents := some (.agentsList
        [.mk (some "wiki") (some "gone.mod") (some true) (some 1) [] []]) }
    (Or.inl rfl) rfl
    ⟨.mk (some "wiki") (some "gone.mod") (some true) (some 1) [] [],
      by
        rw [show sortEnabled (getAgents { agents := some (.agentsList
            [.mk (some "wiki") (some "gone.mod") (some true) (some 1) [] []]) }) =
          [.mk (some "wiki") (some "gone.mod") (some true) (some 1) [] []] from rfl]
        exact List.mem_cons_self _ _,
      .agentNotFoundError (mkImportNotFoundMsg "gone.mod" "wiki"
        "No module named 'gone'"),
      rfl⟩

/-- **C3.** With a successful load cached, `load_agents(force_reload=False)`
returns exactly the cached list with the state untouched and *no* observable
effect — no re-parse, no re-resolution; `reload()` clears both caches and
always re-parses (a `parseCall` leads its event trace) and re-resolves every
surviving enabled entry (one `loadCall` per sorted enabled entry), returning a
list built freshly from the manifest and import environment alone. -/
theorem C3_cache_and_reload (env : AgentsEnv) (st : RegState)
    (cached : List Agent) (cfg : RawDoc) (f : AgentConfig → Agent)
    (hcache : st.loadedAgents = some cached)
    (hparse : strictParse env.path env.input = .ok cfg)
    (hload : ∀ c ∈ sortEnabled (getAgents cfg),
      loadAgentFromModule env.imp (c.module.getD "") (c.name.getD "") = .ok (f c)) :
    loadAgents env false st = (.ok cached, st, []) ∧
    reloadRegistry env st =
      (.ok ((sortEnabled (getAgents cfg)).map f),
        { config := some cfg,
          loadedAgents := some ((sortEnabled (getAgents cfg)).map f) },
        Event.parseCall ::
          (sortEnabled (getAgents cfg)).map
            (fun c => Event.loadCall (c.module.getD "") (c.name.getD ""))) := by
  have hfields : ∀ c ∈ sortEnabled (getAgents cfg),
      c.name.isSome ∧ c.module.isSome ∧ c.order.isSome := by
    intro c hc
    have hmem : c ∈ (getAgents cfg).filter enabledP :=
      (sortByKey_perm orderKey _).mem_iff.mp hc
    have h4 := strictParse_fields env.path env.input cfg hparse c
      (List.mem_of_mem_filter hmem)
    exact ⟨h4.1, h4.2.1, h4.2.2.2⟩
  constructor
  · simp only [loadAgents, hcache]
  · unfold reloadRegistry
    simp only [loadAgents, hparse]
    rw [agentsLoadLoop_ok env.imp f _ hfields hload]

/-- **C3 witness.** A cached one-element state returns the cache untouched;
`reload` re-parses and re-resolves the single enabled entry. -/
theorem C3_cache_and_reload_witness :
    loadAgents
        { path := "agents_registry.yaml",
          input := .content { agents := some (.agentsList
            [.mk (some "wiki") (some "pkg.wiki") (some true) (some 1) [] []]) },
          imp := fun _ => .ok { attrs := [("wiki", .agentVal
            { model := "g", name := "wiki", description := "", instruction := "",
              tools := [], sub_agents := [] })] } }
        false
        { config := none,
          loadedAgents := some [{
            model := "old", name := "old", description := "",
            instruction := "", tools := [], sub_agents := [] }] } =
      (.ok [{
          model := "old", name := "old", description := "",
          instruction := "", tools := [], sub_agents := [] }],
        { config := none,
          loadedAgents := some [{
            model := "old", name := "old", description := "",
            instruction := "", tools := [], sub_agents := [] }] },
        []) ∧
    reloadRegistry
        { path := "agents_registry.yaml",
          input := .content { agents := some (.agentsList
            [.mk (some "wiki") (some "pkg.wiki") (some true) (some 1) [] []]) },
          imp := fun _ => .ok { attrs := [("wiki", .agentVal
            { model := "g", name := "wiki", description := "", instruction := "",
              tools := [], sub_agents := [] })] } }
        { config := none,
          loadedAgents := some [{
            model := "old", name := "old", description := "",
            instruction := "", tools := [], sub_agents := [] }] } =
      (.ok [{
          model := "g", name := "wiki", description := "",
          instruction := "", tools := [], sub_agents := [] }],
        { config := some { agents := some (.agentsList
            [.mk (some "wiki") (some "pkg.wiki") (some true) (some 1) [] []]) },
          loadedAgents := some [{
            model := "g", name := "wiki", description := "",
            instruction := "", tools := [], sub_agents := [] }] },
        [Event.parseCall, Event.loadCall "pkg.wiki" "wiki"]) := by
  have h := C3_cache_and_reload
    { path := "agents_registry.yaml",
      input := .content { agents := some (.agentsList
        [.mk (some "wiki") (some "pkg.wiki") (some true) (some 1) [] []]) },
      imp := fun _ => .ok { attrs := [("wiki", .agentVal
        { model := "g", name := "wiki", description := "", instruction := "",
          tools := [], sub_agents := [] })] } }
    { config := none,
      loadedAgents := some [{
        model := "old", name := "old", description := "",
        instruction := "", tools := [], sub_agents := [] }] }
    [{ model := "old", name := "old", description := "",
       instruction := "", tools := [], sub_agents := [] }]
    { agents := some (.agentsList
        [.mk (some "wiki") (some "pkg.wiki") (some true) (some 1) [] []]) }
    (fun _ => { model := "g", name := "wiki", description := "", instruction := "",
                tools := [], sub_agents := [] })
    rfl rfl
    (by
      intro c hc
      rw [show sortEnabled (getAgents { agents := some (.agentsList
          [.mk (some "wiki") (some "pkg.wiki") (some true) (some 1) [] []]) }) =
        [.mk (some "wiki") (some "pkg.wiki") (some true) (some 1) [] []] from rfl] at hc
      rcases List.mem_cons.mp hc with rfl | hc2
      · rfl
      · exact absurd hc2 (List.not_mem_nil c))
  exact ⟨h.1, h.2⟩

/-- **C10.** `get_agent_config(name)` parses the manifest only when no parsed
config is cached (and caches the parse), then returns the *first* manifest
entry — enabled or disabled alike, nothing in the scan consults `enabled` —
whose `name` equals the requested name, or `None` when no entry matches; it
performs no module import / component resolution (every emitted event is a
parse, never a `loadCall`) and leaves the cached loaded-components list
untouched. -/
theorem C10_get_agent_config (env : AgentsEnv) (st : RegState)
    (agent_name : String) (cfg : RawDoc)
    (hcfg : st.config = some cfg ∨
      (st.config = none ∧ strictParse env.path env.input = .ok cfg)) :
    ∃ o : Option AgentConfig,
      (getAgentConfig env agent_name st).1 = .ok o ∧
      (o = none → ∀ c ∈ getAgents cfg, ¬(c.name = some agent_name)) ∧
      (∀ c, o = some c → c.name = some agent_name ∧
        ∃ pre post, getAgents cfg = pre ++ c :: post ∧
          ∀ x ∈ pre, ¬(x.name = some agent_name)) ∧
      (∀ ev ∈ (getAgentConfig env agent_name st).2.2, ev = Event.parseCall) ∧
      (getAgentConfig env agent_name st).2.1.loadedAgents = st.loadedAgents := by
  have hspec := findAgentConfig_spec agent_name (getAgents cfg)
  refine ⟨findAgentConfig agent_name (getAgents cfg), ?_, ?_, ?_, ?_, ?_⟩ <;>
    rcases hcfg with h | ⟨h1, h2⟩
  · simp [getAgentConfig, h]
  · simp [getAgentConfig, h1, h2]
  · intro hnone c hc; exact hspec.1 hnone c hc
  · intro hnone c hc; exact hspec.1 hnone c hc
  · intro c hc; exact hspec.2 c hc
  · intro c hc; exact hspec.2 c hc
  · simp [getAgentConfig, h]
  · simp [getAgentConfig, h1, h2]
  · simp [getAgentConfig, h]
  · simp [getAgentConfig, h1, h2]

/-- **C10 witness.** A two-entry manifest (the second entry disabled): looking
up the disabled entry's name parses once and returns it without any load. -/
theorem C10_get_agent_config_witness :
    ∃ o : Option AgentConfig,
      (getAgentConfig
        { path := "agents_registry.yaml",
          input := .content { agents := some (.agentsList
            [.mk (some "wiki") (some "m1") (some true) (some 1) [] [],
             .mk (some "off") (some "m2") (some false) (some 2) [] []]) },
          imp := fun _ => .importError "never imported" }
        "off" { config := none, loadedAgents := none }).1 = .ok o ∧
      (o = none → ∀ c ∈ getAgents { agents := some (.agentsList
          [.mk (some "wiki") (some "m1") (some true) (some 1) [] [],
           .mk (some "off") (some "m2") (some false) (some 2) [] []]) },
        ¬(c.name = some "off")) ∧
      (∀ c, o = some c → c.name = some "off" ∧
        ∃ pre post, getAgents { agents := some (.agentsList
            [.mk (some "wiki") (some "m1") (some true) (some 1) [] [],
             .mk (some "off") (some "m2") (some false) (some 2) [] []]) } =
          pre ++ c :: post ∧ ∀ x ∈ pre, ¬(x.name = some "off")) ∧
      (∀ ev ∈ (getAgentConfig
        { path := "agents_registry.yaml",
          input := .content { agents := some (.agentsList
            [.mk (some "wiki") (some "m1") (some true) (some 1) [] [],
             .mk (some "off") (some "m2") (some false) (some 2) [] []]) },
          imp := fun _ => .importError "never imported" }
        "off" { config := none, loadedAgents := none }).2.2, ev = Event.parseCall) ∧
      (getAgentConfig
        { path := "agents_registry.yaml",
          input := .content { agents := some (.agentsList
            [.mk (some "wiki") (some "m1") (some true) (some 1) [] [],
             .mk (some "off") (some "m2") (some false) (some 2) [] []]) },
          imp := fun _ => .importError "never imported" }
        "off" { config := none, loadedAgents := none }).2.1.loadedAgents =
        ({ config := none, loadedAgents := none } : RegState).loadedAgents := by
  exact C10_get_agent_config
    { path := "agents_registry.yaml",
      input := .content { agents := some (.agentsList
        [.mk (some "wiki") (some "m1") (some true) (some 1) [] [],
         .mk (some "off") (some "m2") (some false) (some 2) [] []]) },
      imp := fun _ => .importError "never imported" }
    { config := none, loadedAgents := none } "off"
    { agents := some (.agentsList
        [.mk (some "wiki") (some "m1") (some true) (some 1) [] [],
         .mk (some "off") (some "m2") (some false) (some 2) [] []]) }
    (Or.inr ⟨rfl, rfl⟩)
